/-
Verification of the blog-backend data-access layer (server.js):
the TTL cache, the round-robin replica selector, the read/write HTTP
handlers and the replication bootstrap sequence, shallowly embedded in
Lean 4 with explicit state passing.  JavaScript objects are modelled as
ordered association lists with literal/spread assignment semantics;
the clock is an explicit `now : Nat` parameter (milliseconds).
-/
import Mathlib

namespace BlogBackend

/-! ## JavaScript value and object model

An object literal is built by assigning properties in source order; a
spread `...o` assigns every own property of `o` in order, overwriting
earlier bindings for the same key in place (as `Map.set` does). -/

inductive JVal where
  | str : String → JVal
  | num : Nat → JVal
  | arr : List JVal → JVal
  | obj : List (String × JVal) → JVal

abbrev JObj := List (String × JVal)

/-- Property lookup: first binding for the key (objects built by
`objInsert` have at most one binding per key). -/
def objGet : JObj → String → Option JVal
  | [], _ => none
  | (k0, v) :: rest, k => if k0 = k then some v else objGet rest k

/-- Property assignment `o[k] = v`: overwrite the binding in place if the
key is present, otherwise append it (JavaScript insertion order). -/
def objInsert : JObj → String → JVal → JObj
  | [], k, v => [(k, v)]
  | (k0, v0) :: rest, k, v =>
      if k0 = k then (k, v) :: rest else (k0, v0) :: objInsert rest k v

/-- Spread `{...o, ...src}`: assign every property of `src`, in order,
on top of `o`. -/
def objSpread (o : JObj) (src : JObj) : JObj :=
  src.foldl (fun acc p => objInsert acc p.1 p.2) o

/-! ## In-memory TTL cache (server.js lines 41-57)

`CACHE` is a `Map` from string keys to `{ data, timestamp }` records; we
model it as an association list with at most one entry per key, threaded
explicitly.  `CACHE_TTL` is 10 seconds in milliseconds. -/

structure CacheEntry (α : Type) where
  data : α
  timestamp : Nat

abbrev Cache (α : Type) := List (String × CacheEntry α)

def CACHE_TTL : Nat := 10 * 1000

/-- `CACHE.get(key)` without the expiry logic: the raw map lookup. -/
def cacheLookup (c : Cache α) (k : String) : Option (CacheEntry α) :=
  match c with
  | [] => none
  | (k0, e) :: rest => if k0 = k then some e else cacheLookup rest k

/-- `CACHE.delete(key)`. -/
def cacheDelete (c : Cache α) (k : String) : Cache α :=
  match c with
  | [] => []
  | (k0, e) :: rest => if k0 = k then rest else (k0, e) :: cacheDelete rest k

/-- `CACHE.set(key, entry)`: overwrite in place or append. -/
def cacheWrite (c : Cache α) (k : String) (e : CacheEntry α) : Cache α :=
  match c with
  | [] => [(k, e)]
  | (k0, e0) :: rest =>
      if k0 = k then (k, e) :: rest else (k0, e0) :: cacheWrite rest k e

/-- `setCache(key, data)` (lines 44-46): store `{ data, timestamp: Date.now() }`. -/
def setCache (c : Cache α) (key : String) (data : α) (now : Nat) : Cache α :=
  cacheWrite c key ⟨data, now⟩

/-- `getCache(key)` (lines 48-57): absent keys miss; entries with
`Date.now() - timestamp > CACHE_TTL` are deleted and miss; otherwise the
stored data is returned.  Returns the updated cache and the result. -/
def getCache (c : Cache α) (key : String) (now : Nat) : Cache α × Option α :=
  match cacheLookup c key with
  | none => (c, none)
  | some e =>
      if now - e.timestamp > CACHE_TTL then (cacheDelete c key, none)
      else (c, some e.data)

/-! ## Write handlers (server.js lines 226-238 and 300-311)

Both handlers run the master query, and only on success clear the whole
cache (`CACHE.clear()`) and respond with a success message; a query error
is caught and answered with a generic 500 body, leaving the cache as it
was.  The success/failure of the master query is an explicit Boolean
input (the database is an external collaborator). -/

inductive HandlerResult where
  | ok : JObj → HandlerResult
  | serverError : JObj → HandlerResult

/-- `POST /blog`: insert on master; on success clear the cache. -/
def postBlog (cache : Cache JObj) (insertFails : Bool) :
    Cache JObj × HandlerResult :=
  if insertFails then
    (cache, HandlerResult.serverError (objInsert [] "error" (JVal.str "Error inserting blog")))
  else
    ([], HandlerResult.ok (objInsert [] "message" (JVal.str "Blog created successfully")))

/-- `DELETE /blog/:id`: delete on master; on success clear the cache. -/
def deleteBlog (cache : Cache JObj) (deleteFails : Bool) :
    Cache JObj × HandlerResult :=
  if deleteFails then
    (cache, HandlerResult.serverError (objInsert [] "error" (JVal.str "Error deleting blog")))
  else
    ([], HandlerResult.ok (objInsert [] "message" (JVal.str "Blog deleted successfully")))

/-! ## Round-robin replica selector (server.js lines 28-34)

`slaveIndex` is module-level mutable state; `getSlave()` returns
`slavePools[slaveIndex]` and advances the index modulo the pool count.
JavaScript indexing out of range yields `undefined`, hence `Option`. -/

/-- One `getSlave()` call: the selected pool and the next index. -/
def getSlave (pools : List String) (i : Nat) : Option String × Nat :=
  (pools[i]?, (i + 1) % pools.length)

/-- `n` sequential `getSlave()` calls starting from index `i`: the list of
selected pools in order, and the final index. -/
def getSlaveRun (pools : List String) (i : Nat) : Nat → List (Option String) × Nat
  | 0 => ([], i)
  | Nat.succ m =>
      let r := getSlave pools i
      let rest := getSlaveRun pools r.2 m
      (r.1 :: rest.1, rest.2)

/-! ## Read handler (server.js lines 242-296)

`GET /blogs` parses `page`/`limit`, derives the cache key
`blogs_{page}_{limit}` and the offset `(page-1)*limit`; a cache hit is
served as the literal `{ source: 'cache', ...cached }`; a miss queries a
replica with `SELECT * FROM blogs ORDER BY id DESC LIMIT ? OFFSET ?`,
maps each row to `{ id: r.id, ...r.data }`, builds the response object
and stores it in the cache.  The replica's table and host name are
explicit inputs (the database is an external collaborator). -/

/-- A row of the `blogs` table: auto-increment `id`, JSON `data` document
(modelled already parsed, as a JavaScript object), `created_at`. -/
structure BlogRow where
  id : Nat
  data : JObj
  created_at : Nat

/-- Insert a row into a list sorted by descending `id` (stable). -/
def insertDescById (r : BlogRow) : List BlogRow → List BlogRow
  | [] => [r]
  | x :: xs => if r.id > x.id then r :: x :: xs else x :: insertDescById r xs

/-- `ORDER BY id DESC` over the whole table. -/
def sortByIdDesc : List BlogRow → List BlogRow
  | [] => []
  | r :: rs => insertDescById r (sortByIdDesc rs)

/-- `SELECT * FROM blogs ORDER BY id DESC LIMIT limit OFFSET offset`. -/
def sqlSelectPage (table : List BlogRow) (limit offset : Nat) : List BlogRow :=
  ((sortByIdDesc table).drop offset).take limit

/-- The row mapping of lines 272-275: the literal `{ id: r.id, ...data }`
(the `created_at` column of the row is not used). -/
def rowToBlog (r : BlogRow) : JObj :=
  objSpread (objInsert [] "id" (JVal.num r.id)) r.data

/-- Cache key `blogs_${page}_${limit}` of line 248. -/
def cacheKey (page limit : Nat) : String :=
  "blogs_" ++ toString page ++ "_" ++ toString limit

/-- The response object of lines 279-285:
`{ source: dbHost, page, limit, size: blogs.length, blogs }`. -/
def buildResponse (dbHost : String) (page limit : Nat) (blogs : List JObj) : JObj :=
  objInsert (objInsert (objInsert (objInsert (objInsert []
    "source" (JVal.str dbHost))
    "page" (JVal.num page))
    "limit" (JVal.num limit))
    "size" (JVal.num blogs.length))
    "blogs" (JVal.arr (blogs.map JVal.obj))

/-- The cache-hit response of line 254: the literal `{ source: 'cache', ...cached }`
under JavaScript object-literal semantics (later assignments win). -/
def serveCacheHit (cached : JObj) : JObj :=
  objSpread (objInsert [] "source" (JVal.str "cache")) cached

/-- The `GET /blogs` handler: cache state in, a replica's host and table,
and the explicit clock; returns the new cache state and the JSON body. -/
def blogsHandler (cache : Cache JObj) (now : Nat) (page limit : Nat)
    (dbHost : String) (table : List BlogRow) : Cache JObj × JObj :=
  let offset := (page - 1) * limit
  let key := cacheKey page limit
  let g := getCache cache key now
  match g.2 with
  | some cached => (g.1, serveCacheHit cached)
  | none =>
      let rows := sqlSelectPage table limit offset
      let blogs := rows.map rowToBlog
      let response := buildResponse dbHost page limit blogs
      (setCache g.1 key response now, response)

/-! ## Replication bootstrap (server.js lines 64-218 and 318-328)

`startServer` awaits, in order: `waitForDB` (catches internally, bounded
retries), `ensureReplicationUser` (own try/catch), `initDB` (NO
try/catch), `ensureSlaveDatabases` and `ensureTableOnSlaves` (per-slave
try/catch inside the loop), `setupReplication` (one try/catch around the
master query and the whole replica loop), then `app.listen`.  Whether
each underlying database operation fails is an explicit oracle; an
uncaught exception ends the sequence (`startServer()` is called with no
rejection handler). -/

inductive BootStep where
  | waitForMaster
  | ensureReplUser
  | writeSchema
  | replicaDatabases
  | replicaTables
  | configureReplication
  | listen
deriving DecidableEq, Repr

/-- Which underlying database operations fail during bootstrap. -/
structure BootEnv where
  replUserFails : Bool
  masterTableFails : Bool
  slaveDbFails : List Bool
  slaveTableFails : List Bool
  binlogFails : Bool
  replicas : List (String × Bool)

/-- `ensureReplicationUser` (lines 87-103): body in its own try/catch, so
the step always returns; a failure only produces the error log. -/
def ensureReplicationUser (fails : Bool) : List String :=
  if fails then ["Error creating replication user"]
  else ["Replication user ensured on master"]

/-- `initDB` (lines 181-192): no try/catch — a query error escapes the
function and propagates out of `startServer`. -/
def initDB (fails : Bool) : Except String (List String) :=
  if fails then Except.error "initDB query failed"
  else Except.ok ["Blogs table ready"]

/-- `ensureSlaveDatabases` (lines 111-123): the try/catch is inside the
per-slave loop, so every slave is attempted regardless of failures. -/
def ensureSlaveDatabases (slaveFails : List Bool) : List String :=
  slaveFails.map (fun f =>
    if f then "Error ensuring DB on slave" else "Database blogdb ensured")

/-- `ensureTableOnSlaves` (lines 200-218): same per-slave try/catch. -/
def ensureTableOnSlaves (slaveFails : List Bool) : List String :=
  slaveFails.map (fun f =>
    if f then "Error ensuring blogs table on slave" else "blogs table ensured")

/-- The per-replica loop of `setupReplication` (lines 149-165): the
replicas are processed sequentially inside the function's single try
block, so a throw at one replica escapes the loop at once.  Returns the
hosts whose stop/point-at-master/restart sequence completed, and the
error, if any. -/
def configureReplicas : List (String × Bool) → List String × Option String
  | [] => ([], none)
  | (host, fails) :: rest =>
      if fails then ([], some ("replica configure failed: " ++ host))
      else
        let r := configureReplicas rest
        (host :: r.1, r.2)

/-- `setupReplication` (lines 132-174): one try/catch around the master
binlog query and the whole replica loop; any error is caught and logged
at function level.  Returns (configured hosts, logs). -/
def setupReplication (binlogFails : Bool) (replicas : List (String × Bool)) :
    List String × List String :=
  if binlogFails then ([], ["Replication setup failed"])
  else
    let r := configureReplicas replicas
    match r.2 with
    | some _ => (r.1, ["Replication setup failed"])
    | none => (r.1, ["Replication configured successfully"])

structure BootResult where
  executed : List BootStep
  logs : List String
  configured : List String
  completedOk : Bool

/-- `startServer` (lines 318-326): sequential awaits; an uncaught
exception (only `initDB` can raise one) aborts the remaining steps and
the sequence does not complete. -/
def startServerRun (env : BootEnv) : BootResult :=
  let l0 := ["Master DB is ready"]
  let l1 := ensureReplicationUser env.replUserFails
  match initDB env.masterTableFails with
  | Except.error _ =>
      { executed := [BootStep.waitForMaster, BootStep.ensureReplUser, BootStep.writeSchema]
        logs := l0 ++ l1
        configured := []
        completedOk := false }
  | Except.ok l2 =>
      let l3 := ensureSlaveDatabases env.slaveDbFails
      let l4 := ensureTableOnSlaves env.slaveTableFails
      let r := setupReplication env.binlogFails env.replicas
      { executed := [BootStep.waitForMaster, BootStep.ensureReplUser,
                     BootStep.writeSchema, BootStep.replicaDatabases,
                     BootStep.replicaTables, BootStep.configureReplication,
                     BootStep.listen]
        logs := l0 ++ l1 ++ l2 ++ l3 ++ l4 ++ r.2
        configured := r.1
        completedOk := true }

/-! ## Helper lemmas about the object model -/

theorem objGet_objInsert (o : JObj) (k0 k : String) (v0 : JVal) :
    objGet (objInsert o k0 v0) k = if k0 = k then some v0 else objGet o k := by
  induction o with
  | nil =>
      by_cases h : k0 = k <;> simp [objInsert, objGet, h]
  | cons p rest ih =>
      obtain ⟨k1, v1⟩ := p
      by_cases h1 : k1 = k0
      · subst h1
        by_cases h2 : k1 = k <;> simp [objInsert, objGet, h2]
      · by_cases h2 : k1 = k
        · subst h2
          have h3 : ¬ k0 = k1 := fun hh => h1 hh.symm
          simp [objInsert, objGet, h1, h3]
        · simp [objInsert, objGet, h1, h2, ih]

theorem objGet_eq_none (o : JObj) (k : String) (h : ∀ p ∈ o, p.1 ≠ k) :
    objGet o k = none := by
  induction o with
  | nil => rfl
  | cons p rest ih =>
      obtain ⟨k1, v1⟩ := p
      have h1 : k1 ≠ k := h (k1, v1) (by simp)
      simp only [objGet, if_neg h1]
      exact ih fun q hq => h q (by simp [hq])

theorem objGet_objSpread_none (src : JObj) (k : String) :
    objGet src k = none → ∀ o : JObj, objGet (objSpread o src) k = objGet o k := by
  induction src with
  | nil => intro _ o; rfl
  | cons p rest ih =>
      obtain ⟨k0, v0⟩ := p
      intro hnone o
      have hk0 : ¬ k0 = k := by
        intro h; rw [objGet, if_pos h] at hnone; exact Option.noConfusion hnone
      have hrest : objGet rest k = none := by
        rwa [objGet, if_neg hk0] at hnone
      show objGet (objSpread (objInsert o k0 v0) rest) k = objGet o k
      rw [ih hrest, objGet_objInsert, if_neg hk0]

theorem objGet_objSpread_some (src : JObj) (k : String) (v : JVal) :
    (src.map Prod.fst).Nodup → objGet src k = some v →
    ∀ o : JObj, objGet (objSpread o src) k = some v := by
  induction src with
  | nil => intro _ h; exact absurd h (by simp [objGet])
  | cons p rest ih =>
      obtain ⟨k0, v0⟩ := p
      intro hnd hsome o
      rw [List.map_cons, List.nodup_cons] at hnd
      obtain ⟨hk0mem, hrestnd⟩ := hnd
      show objGet (objSpread (objInsert o k0 v0) rest) k = some v
      by_cases h : k0 = k
      · subst h
        rw [objGet, if_pos rfl] at hsome
        have hnone : objGet rest k0 = none := by
          refine objGet_eq_none rest k0 fun q hq hqk => ?_
          have hmem : q.1 ∈ rest.map Prod.fst := List.mem_map_of_mem Prod.fst hq
          rw [hqk] at hmem
          exact hk0mem hmem
        rw [objGet_objSpread_none rest k0 hnone, objGet_objInsert, if_pos rfl, hsome]
      · rw [objGet, if_neg h] at hsome
        exact ih hrestnd hsome (objInsert o k0 v0)

/-! ## Claim theorems -/

/-- C5 counterexample: at `t_set = 0`, `t_get = CACHE_TTL` the age equals
the TTL exactly; the claim ("valid only while `t_get - t_set < TTL`,
otherwise absent") predicts a miss, but `getCache` only expires entries
strictly older than the TTL and returns the stored value. -/
theorem C5_counterexample :
    ¬ ((getCache [("k", (⟨0, 0⟩ : CacheEntry Nat))] "k" CACHE_TTL).2 = none) := by
  decide

/-- C5 (amended): `get(key)` returns the stored value if an entry is
present and `t_get - t_set ≤ TTL` (not `<`); otherwise it returns absent,
deleting the entry when a stale one is present and leaving the cache
unchanged when the key is absent. -/
theorem C5_theorem {α : Type} (c : Cache α) (key : String) (now : Nat) :
    (cacheLookup c key = none → getCache c key now = (c, none)) ∧
    (∀ e, cacheLookup c key = some e →
      (now - e.timestamp ≤ CACHE_TTL → getCache c key now = (c, some e.data)) ∧
      (CACHE_TTL < now - e.timestamp →
        getCache c key now = (cacheDelete c key, none))) := by
  constructor
  · intro h; unfold getCache; rw [h]
  · intro e he
    constructor
    · intro hle
      simp only [getCache, he]
      rw [if_neg (show ¬ now - e.timestamp > CACHE_TTL by omega)]
    · intro hlt
      simp only [getCache, he]
      rw [if_pos (show now - e.timestamp > CACHE_TTL by omega)]

/-- C5 witness: a fresh entry (age 3ms) is returned, a stale one
(age `CACHE_TTL + 1`) is evicted. -/
theorem C5_witness :
    getCache [("k", (⟨5, 0⟩ : CacheEntry Nat))] "k" 3
      = ([("k", ⟨5, 0⟩)], some 5) ∧
    getCache [("k", (⟨5, 0⟩ : CacheEntry Nat))] "k" (CACHE_TTL + 1)
      = ([], none) :=
  ⟨((C5_theorem [("k", (⟨5, 0⟩ : CacheEntry Nat))] "k" 3).2 ⟨5, 0⟩ rfl).1 (by decide),
   ((C5_theorem [("k", (⟨5, 0⟩ : CacheEntry Nat))] "k" (CACHE_TTL + 1)).2 ⟨5, 0⟩ rfl).2 (by decide)⟩

/-- C7: a successful `POST /blog` or `DELETE /blog/:id` clears the whole
cache, so every subsequent `get`, for any key and any time, misses. -/
theorem C7_theorem (cache : Cache JObj) (key : String) (now : Nat) :
    (postBlog cache false).1 = [] ∧
    (deleteBlog cache false).1 = [] ∧
    (getCache (postBlog cache false).1 key now).2 = none ∧
    (getCache (deleteBlog cache false).1 key now).2 = none := by
  exact ⟨rfl, rfl, rfl, rfl⟩

/-- C10: if the master query of `POST /blog` or `DELETE /blog/:id` raises,
the handler leaves the cache exactly as it was (no invalidation) and
answers with the generic 500 error body. -/
theorem C10_theorem (cache : Cache JObj) :
    postBlog cache true =
      (cache, HandlerResult.serverError
        (objInsert [] "error" (JVal.str "Error inserting blog"))) ∧
    deleteBlog cache true =
      (cache, HandlerResult.serverError
        (objInsert [] "error" (JVal.str "Error deleting blog"))) :=
  ⟨rfl, rfl⟩

/-- C3 counterexample: with replicas `s1` (fails) and `s2` (would
succeed), `s2` is NOT configured — the loop shares one try/catch, so the
first failure aborts the remaining replicas, refuting the claim that one
replica's failure does not prevent the others from being configured. -/
theorem C3_counterexample :
    ¬ ("s2" ∈ (setupReplication false [("s1", true), ("s2", false)]).1) := by
  decide

theorem configureReplicas_fst (l : List (String × Bool)) :
    (configureReplicas l).1 = (l.takeWhile (fun p => !p.2)).map Prod.fst := by
  induction l with
  | nil => rfl
  | cons p rest ih =>
      obtain ⟨host, f⟩ := p
      cases f <;> simp [configureReplicas, List.takeWhile_cons, ih]

/-- C3 (amended): replicas are configured sequentially inside one try
block; a replica failure aborts the loop, so exactly the replicas strictly
before the first failing one end up configured, and the error is caught
and logged at function level. -/
theorem C3_theorem (replicas : List (String × Bool)) :
    (setupReplication false replicas).1 =
      (replicas.takeWhile (fun p => !p.2)).map Prod.fst ∧
    (∀ e, (configureReplicas replicas).2 = some e →
      (setupReplication false replicas).2 = ["Replication setup failed"]) := by
  constructor
  · unfold setupReplication
    rw [if_neg (by simp)]
    cases hr : (configureReplicas replicas).2 <;>
      simp [hr, configureReplicas_fst]
  · intro e he
    unfold setupReplication
    rw [if_neg (by simp)]
    simp [he]

/-- C3 witness: first replica fails, second would succeed — only the
replicas before the failure (none) are configured and the error is logged. -/
theorem C3_witness :
    (setupReplication false [("s1", true), ("s2", false)]).1 =
      ([("s1", true), ("s2", false)].takeWhile (fun p => !p.2)).map Prod.fst ∧
    (setupReplication false [("s1", true), ("s2", false)]).2 =
      ["Replication setup failed"] :=
  ⟨(C3_theorem [("s1", true), ("s2", false)]).1,
   (C3_theorem [("s1", true), ("s2", false)]).2
     ("replica configure failed: " ++ "s1") rfl⟩

def bootEnvReplUserFail : BootEnv :=
  { replUserFails := true
    masterTableFails := false
    slaveDbFails := [false, false]
    slaveTableFails := [false, false]
    binlogFails := false
    replicas := [("mysql-slave1", false), ("mysql-slave2", false)] }

/-- C2 counterexample: in a run where only replication-user creation
fails, the later steps (write schema, replica schemas, replication
configuration) ARE all executed — the failure is caught inside
`ensureReplicationUser`, so it is not fatal, refuting the claim. -/
theorem C2_counterexample :
    BootStep.writeSchema ∈ (startServerRun bootEnvReplUserFail).executed ∧
    BootStep.replicaDatabases ∈ (startServerRun bootEnvReplUserFail).executed ∧
    BootStep.replicaTables ∈ (startServerRun bootEnvReplUserFail).executed ∧
    BootStep.configureReplication ∈ (startServerRun bootEnvReplUserFail).executed := by
  decide

/-- C2 (amended): a replication-user failure is logged but is NOT fatal:
whenever the master-table step itself succeeds, every later bootstrap step
still executes and the sequence completes. -/
theorem C2_theorem (env : BootEnv) (h : env.replUserFails = true)
    (h2 : env.masterTableFails = false) :
    "Error creating replication user" ∈ (startServerRun env).logs ∧
    (startServerRun env).executed =
      [BootStep.waitForMaster, BootStep.ensureReplUser, BootStep.writeSchema,
       BootStep.replicaDatabases, BootStep.replicaTables,
       BootStep.configureReplication, BootStep.listen] ∧
    (startServerRun env).completedOk = true := by
  unfold startServerRun initDB ensureReplicationUser
  rw [h, h2]
  simp

/-- C2 witness: the concrete failing-replication-user run. -/
theorem C2_witness :
    "Error creating replication user" ∈ (startServerRun bootEnvReplUserFail).logs ∧
    (startServerRun bootEnvReplUserFail).executed =
      [BootStep.waitForMaster, BootStep.ensureReplUser, BootStep.writeSchema,
       BootStep.replicaDatabases, BootStep.replicaTables,
       BootStep.configureReplication, BootStep.listen] ∧
    (startServerRun bootEnvReplUserFail).completedOk = true :=
  C2_theorem bootEnvReplUserFail rfl rfl

def bootEnvInitDbFail : BootEnv :=
  { replUserFails := false
    masterTableFails := true
    slaveDbFails := []
    slaveTableFails := []
    binlogFails := false
    replicas := [] }

def bootEnvAllOk : BootEnv :=
  { replUserFails := false
    masterTableFails := false
    slaveDbFails := []
    slaveTableFails := []
    binlogFails := false
    replicas := [] }

/-- C4 counterexample: `initDB` (master table creation) has no try/catch,
so a failure there escapes `startServer` — the startup sequence does not
complete, refuting the claim that every bootstrap step's error is caught. -/
theorem C4_counterexample :
    ¬ ((startServerRun bootEnvInitDbFail).completedOk = true) := by
  decide

/-- C4 (amended): every bootstrap step except master table creation
catches and logs its own errors: with `initDB` succeeding the sequence
completes whatever else fails, while an `initDB` error propagates out of
the startup sequence and aborts the remaining steps. -/
theorem C4_theorem (env : BootEnv) :
    (env.masterTableFails = false → (startServerRun env).completedOk = true) ∧
    (env.masterTableFails = true →
      (startServerRun env).completedOk = false ∧
      (startServerRun env).executed =
        [BootStep.waitForMaster, BootStep.ensureReplUser, BootStep.writeSchema]) := by
  unfold startServerRun initDB
  cases h : env.masterTableFails <;> simp

/-- C4 witness: an all-succeeding run completes; a failing-initDB run does
not, stopping at the write-schema step. -/
theorem C4_witness :
    (startServerRun bootEnvAllOk).completedOk = true ∧
    (startServerRun bootEnvInitDbFail).completedOk = false :=
  ⟨(C4_theorem bootEnvAllOk).1 rfl, ((C4_theorem bootEnvInitDbFail).2 rfl).1⟩

def demoTable : List BlogRow := [⟨1, [("title", JVal.str "A")], 111⟩]

/-- A miss on `GET /blogs?page=1&limit=5` served by `mysql-slave1`. -/
def missServe : Cache JObj × JObj := blogsHandler [] 0 1 5 "mysql-slave1" demoTable

/-- The immediately repeated identical `GET`, now a cache hit. -/
def hitServe : Cache JObj × JObj := blogsHandler missServe.1 0 1 5 "mysql-slave2" demoTable

/-- C1: at the failing input (a cached, unexpired entry for
`blogs_1_5`, stored by a miss served from `mysql-slave1`), the body served
on the cache hit is byte-identical to the cached response — including
`source: "mysql-slave1"`.  The literal `{ source: 'cache', ...cached }`
lets the spread's own `source` property overwrite `'cache'`, so the
`source` field never equals `"cache"`, contradicting line 254's intent and
the README ("`source` ... `cache`, `mysql-slave1`, or `mysql-slave2`"). -/
theorem C1_theorem :
    objGet hitServe.2 "source" = some (JVal.str "mysql-slave1") ∧
    hitServe.2 = missServe.2 ∧
    ¬ (objGet hitServe.2 "source" = some (JVal.str "cache")) := by
  refine ⟨rfl, rfl, fun h => ?_⟩
  have h2 : some (JVal.str "mysql-slave1") = some (JVal.str "cache") := h
  injection h2 with h3
  injection h3 with h4
  exact absurd h4 (by decide)

/-- C8 counterexample: for the row `{id: 1, data: {"title":"A"},
created_at: 123}` the handler's row mapping `{ id: r.id, ...r.data }`
drops the `created_at` column, so the claim that each element of `blogs`
contains the record's `created_at` timestamp fails. -/
theorem C8_counterexample :
    ¬ (objGet (rowToBlog ⟨1, [("title", JVal.str "A")], 123⟩) "created_at"
        = some (JVal.num 123)) := by
  intro h
  have h2 : (none : Option JVal) = some (JVal.num 123) := h
  exact Option.noConfusion h2

/-- C8 (amended): each element of `blogs` contains the record's `id` and
the fields of its stored document verbatim, but NOT the `created_at`
timestamp — the row mapping `{ id: r.id, ...r.data }` discards the
`created_at` column (stated for documents whose own keys are distinct and
do not themselves shadow `id` or `created_at`). -/
theorem C8_theorem (r : BlogRow) (hnd : (r.data.map Prod.fst).Nodup)
    (hid : objGet r.data "id" = none)
    (hca : objGet r.data "created_at" = none) :
    objGet (rowToBlog r) "id" = some (JVal.num r.id) ∧
    (∀ k v, objGet r.data k = some v → objGet (rowToBlog r) k = some v) ∧
    objGet (rowToBlog r) "created_at" = none := by
  refine ⟨?_, ?_, ?_⟩
  · rw [rowToBlog, objGet_objSpread_none r.data "id" hid]
    rw [objGet_objInsert, if_pos rfl]
  · intro k v hkv
    exact objGet_objSpread_some r.data k v hnd hkv _
  · rw [rowToBlog, objGet_objSpread_none r.data "created_at" hca]
    rw [objGet_objInsert, if_neg (by decide)]
    rfl

/-- C8 witness: a concrete row mapped by the handler keeps `id` and the
document's `title` field but has no `created_at` property. -/
theorem C8_witness :
    objGet (rowToBlog ⟨7, [("title", JVal.str "A")], 99⟩) "id"
      = some (JVal.num 7) ∧
    objGet (rowToBlog ⟨7, [("title", JVal.str "A")], 99⟩) "title"
      = some (JVal.str "A") ∧
    objGet (rowToBlog ⟨7, [("title", JVal.str "A")], 99⟩) "created_at"
      = none :=
  ⟨(C8_theorem ⟨7, [("title", JVal.str "A")], 99⟩ (by simp) rfl rfl).1,
   (C8_theorem ⟨7, [("title", JVal.str "A")], 99⟩ (by simp) rfl rfl).2.1
     "title" (JVal.str "A") rfl,
   (C8_theorem ⟨7, [("title", JVal.str "A")], 99⟩ (by simp) rfl rfl).2.2⟩

/-- The ids 1..10 in insertion order, with opaque documents. -/
def table10 : List BlogRow :=
  (List.range 10).map (fun i => ⟨i + 1, [("n", JVal.num (i + 1))], 0⟩)

/-- C9: on a table holding exactly ids 1..10 (insertion order = id
order), `GET /blogs?page=2&limit=3` uses offset `(2-1)*3 = 3` and returns
exactly the records with ids 7, 6, 5, newest-first; the handler's `blogs`
field is precisely the row mapping of that page and `size` is 3. -/
theorem C9_theorem :
    (2 - 1) * 3 = 3 ∧
    (sqlSelectPage table10 3 ((2 - 1) * 3)).map BlogRow.id = [7, 6, 5] ∧
    objGet (blogsHandler [] 0 2 3 "mysql-slave1" table10).2 "blogs" =
      some (JVal.arr ((sqlSelectPage table10 3 3).map
        (fun r => JVal.obj (rowToBlog r)))) ∧
    objGet (blogsHandler [] 0 2 3 "mysql-slave1" table10).2 "size" =
      some (JVal.num 3) := by
  exact ⟨rfl, by decide, rfl, rfl⟩

/-! ## Round-robin fairness (C6) -/

/-- Cyclic characterization of sequential `getSlave()` calls: the `j`-th
call selects the pool at index `(i + j) % N`, and the stored index after
`m` calls is `(i + m) % N`. -/
theorem getSlaveRun_spec (pools : List String) (m : Nat) :
    ∀ i, i < pools.length →
      (getSlaveRun pools i m).1 =
        (List.range m).map (fun j => pools[(i + j) % pools.length]?) ∧
      (getSlaveRun pools i m).2 = (i + m) % pools.length := by
  induction m with
  | zero =>
      intro i hi
      exact ⟨rfl, by simp [getSlaveRun, Nat.mod_eq_of_lt hi]⟩
  | succ m ih =>
      intro i hi
      have hN : 0 < pools.length := Nat.lt_of_le_of_lt (Nat.zero_le i) hi
      have hi' : (i + 1) % pools.length < pools.length := Nat.mod_lt _ hN
      obtain ⟨ih1, ih2⟩ := ih ((i + 1) % pools.length) hi'
      have hfun : ∀ j : Nat,
          pools[(((i + 1) % pools.length) + j) % pools.length]?
            = pools[(i + (j + 1)) % pools.length]? := by
        intro j
        rw [Nat.mod_add_mod]
        exact congrArg (fun x => pools[x % pools.length]?) (by omega)
      constructor
      · show pools[i]? :: (getSlaveRun pools ((i + 1) % pools.length) m).1 = _
        rw [ih1, List.range_succ_eq_map, List.map_cons, List.map_map]
        have htail : (fun j => pools[(((i + 1) % pools.length) + j) % pools.length]?)
            = ((fun j => pools[(i + j) % pools.length]?) ∘ Nat.succ) := by
          funext j
          show pools[(((i + 1) % pools.length) + j) % pools.length]?
              = pools[(i + (j + 1)) % pools.length]?
          exact hfun j
        rw [htail]
        have hhead : (i + 0) % pools.length = i := by
          rw [Nat.add_zero]
          exact Nat.mod_eq_of_lt hi
        show pools[i]? :: _ = pools[(i + 0) % pools.length]? :: _
        rw [hhead]
      · show (getSlaveRun pools ((i + 1) % pools.length) m).2 = _
        rw [ih2, Nat.mod_add_mod]
        exact congrArg (fun x => x % pools.length) (by omega)

theorem mod_two_cases (a N : Nat) (h : a < 2 * N) :
    a % N = if a < N then a else a - N := by
  by_cases hlt : a < N
  · rw [if_pos hlt]
    exact Nat.mod_eq_of_lt hlt
  · rw [if_neg hlt, Nat.mod_eq_sub_mod (by omega)]
    exact Nat.mod_eq_of_lt (by omega)

theorem length_filter_eq_one_of_nodup (t : Nat) :
    ∀ l : List Nat, l.Nodup → t ∈ l →
      (l.filter (fun j => decide (j = t))).length = 1 := by
  intro l
  induction l with
  | nil => intro _ hmem; cases hmem
  | cons a rest ih =>
      intro hnd hmem
      rw [List.nodup_cons] at hnd
      obtain ⟨hanotin, hrestnd⟩ := hnd
      by_cases ha : a = t
      · subst ha
        have hnone : rest.filter (fun j => decide (j = a)) = [] :=
          List.filter_eq_nil_iff.mpr fun b hb =>
            by simp only [decide_eq_true_eq]; exact fun hba => hanotin (hba ▸ hb)
        simp [List.filter_cons, hnone]
      · have hmem' : t ∈ rest := by
          cases hmem with
          | head => exact absurd rfl ha
          | tail _ h => exact h
        simp only [List.filter_cons, decide_eq_true_eq]
        rw [if_neg (by simpa using ha)]
        exact ih hrestnd hmem'

/-- Over one full cycle `range N`, each residue class `r < N` of
`(s + j) % N` is hit by exactly one `j`. -/
theorem filter_range_residue (N s r : Nat) (hN : 0 < N) (hr : r < N) :
    ((List.range N).filter
      (fun j => decide ((s + j) % N = r))).length = 1 := by
  have hs : s % N < N := Nat.mod_lt _ hN
  have htlt : (N + r - s % N) % N < N := Nat.mod_lt _ hN
  have hiff : ∀ j ∈ List.range N,
      (decide ((s + j) % N = r))
        = (decide (j = (N + r - s % N) % N)) := by
    intro j hj
    rw [List.mem_range] at hj
    apply decide_eq_decide.mpr
    have h1 : (s + j) % N = (s % N + j) % N := by
      rw [Nat.add_mod, Nat.mod_eq_of_lt hj]
    have h2 : (s % N + j) % N
        = if s % N + j < N then s % N + j else s % N + j - N :=
      mod_two_cases _ _ (by omega)
    have h3 : (N + r - s % N) % N
        = if N + r - s % N < N then N + r - s % N else N + r - s % N - N :=
      mod_two_cases _ _ (by omega)
    rw [h1, h2, h3]
    split_ifs <;> omega
  rw [List.filter_congr hiff]
  exact length_filter_eq_one_of_nodup _ (List.range N) (List.nodup_range N)
    (List.mem_range.mpr htlt)

/-- Over `k` full cycles, each residue class `r < N` is hit exactly `k`
times. -/
theorem filter_range_mul (N s r : Nat) (hN : 0 < N) (hr : r < N) :
    ∀ k : Nat,
      ((List.range (k * N)).filter
        (fun j => decide ((s + j) % N = r))).length = k := by
  intro k
  induction k with
  | zero => rw [Nat.zero_mul]; rfl
  | succ k ih =>
      have hsplit : (k + 1) * N = k * N + N := by ring
      rw [hsplit, List.range_add, List.filter_append, List.length_append, ih]
      rw [List.filter_map, List.length_map]
      have hcong : ∀ j ∈ List.range N,
          ((fun j => decide ((s + j) % N = r)) ∘ (k * N + ·)) j
            = (fun j => decide ((s + j) % N = r)) j := by
        intro j _
        show decide ((s + (k * N + j)) % N = r) = decide ((s + j) % N = r)
        have harith : (s + (k * N + j)) % N = (s + j) % N := by
          rw [show s + (k * N + j) = (s + j) + k * N by ring,
            Nat.add_mul_mod_self_right]
        rw [harith]
      rw [List.filter_congr hcong, filter_range_residue N s r hN hr]

/-- C6: round-robin fairness — starting from any in-range index, over
`M = k * N` sequential `getSlave()` calls the `j`-th call selects the
replica at index `(start + j) % N` (cyclic list order from the current
index, wrapping to zero after the last replica), each replica slot is
selected exactly `M / N = k` times, and the stored index returns to
`start`. -/
theorem C6_theorem (pools : List String) (start k : Nat)
    (hstart : start < pools.length) :
    (getSlaveRun pools start (k * pools.length)).1 =
      (List.range (k * pools.length)).map
        (fun j => pools[(start + j) % pools.length]?) ∧
    (∀ r, r < pools.length →
      ((List.range (k * pools.length)).filter
        (fun j => decide ((start + j) % pools.length = r))).length = k) ∧
    (getSlaveRun pools start (k * pools.length)).2 = start := by
  have hN : 0 < pools.length := Nat.lt_of_le_of_lt (Nat.zero_le start) hstart
  obtain ⟨h1, h2⟩ := getSlaveRun_spec pools (k * pools.length) start hstart
  refine ⟨h1, ?_, ?_⟩
  · intro r hr
    exact filter_range_mul pools.length start r hN hr k
  · rw [h2, Nat.add_mul_mod_self_right, Nat.mod_eq_of_lt hstart]

/-- C6 witness: two replicas, starting index 0, four calls — the pools
are selected in cyclic order, each slot exactly twice, and the index wraps
back to 0. -/
theorem C6_witness :
    (getSlaveRun ["mysql-slave1", "mysql-slave2"] 0 4).1 =
      (List.range 4).map
        (fun j => ["mysql-slave1", "mysql-slave2"][(0 + j) % 2]?) ∧
    ((List.range 4).filter (fun j => decide ((0 + j) % 2 = 0))).length = 2 ∧
    (getSlaveRun ["mysql-slave1", "mysql-slave2"] 0 4).2 = 0 := by
  have h := C6_theorem ["mysql-slave1", "mysql-slave2"] 0 2 (by decide)
  exact ⟨h.1, h.2.1 0 (by decide), h.2.2⟩

end BlogBackend
